import Mathlib

/-
Shallow embedding of sys_eval.py (VoI_in_CAS repository).

The file embeds the three parts of the module that the verified claims
are about:

1. The objective aggregation at the end of evaluate_system
   (lines 137-161 of sys_eval.py).  Numpy per-timestep series are
   embedded as functions from the timestep index to rationals, read on
   the range [0, time_steps); numpy dot products become finite sums over
   that range.  The environment buildings are a list of records holding
   the data the aggregation reads from each terminal building object.

2. The receding-horizon control loop (lines 105-133).  The CityLearn
   environment and the LinProgModel planner are external collaborators;
   they are embedded as abstract deterministic interfaces: observations
   are an arbitrary function of the action history applied so far, and
   the planner solve is an arbitrary function of (t_start, tau, socs)
   which may fail (an Option, embedding a raised solver exception).
   The environment signals done exactly after time_steps steps, which
   is embedded by running the loop with fuel time_steps; this is the
   documented CityLearn episode contract.

3. The construct_and_evaluate_system wrapper (lines 18-49), including
   the os.path.normpath based guard protecting files named schema.json
   from deletion.  The filesystem is a list of existing paths, and
   os.remove is an Except value that fails when the path is absent,
   embedding the raised OSError.  Paths use the POSIX separator, which
   is what the repository targets.
-/

/-! ## Data model for the objective aggregation -/

/-- Terminal per-building data read by the aggregation in evaluate_system:
the net electricity consumption series (a function of the timestep),
the battery capacity history (b.electrical_storage.capacity_history)
and the nominal solar power (b.pv.nominal_power). -/
structure BuildingData where
  net_electricity_consumption : ℕ → ℚ
  capacity_history : List ℚ
  pv_nominal_power : ℚ

instance : Inhabited BuildingData :=
  ⟨{ net_electricity_consumption := fun _ => 0, capacity_history := [],
     pv_nominal_power := 0 }⟩

/-- Terminal environment data read by the aggregation.  The code reads
the electricity pricing and carbon intensity series from buildings[0];
per the environment contract they are shared by all buildings, so they
are stored once here. -/
structure SimResult where
  time_steps : ℕ
  buildings : List BuildingData
  electricity_pricing : ℕ → ℚ
  carbon_intensity : ℕ → ℚ

/-- The pricing dictionary with its three required keys. -/
structure PricingDict where
  carbon : ℚ
  battery : ℚ
  solar : ℚ
deriving DecidableEq

/-- np.clip(q, 0, None): replace negative values by zero. -/
def clip0 (q : ℚ) : ℚ := max q 0

/-- Dot product of two per-timestep series over the simulated duration,
embedding the numpy expression a @ p for arrays of length T. -/
def dotT (T : ℕ) (a p : ℕ → ℚ) : ℚ := ∑ t ∈ Finset.range T, a t * p t

/-- np.sum([b.net_electricity_consumption for b in env.buildings], axis=0):
district level net consumption at timestep t. -/
def districtConsumption (sr : SimResult) (t : ℕ) : ℚ :=
  (sr.buildings.map (fun b => b.net_electricity_consumption t)).sum

/-- The objective_contributions list built by the if/elif chain on
clip_level in evaluate_system (lines 138-154).  A clip_level outside
d, b, m leaves the list empty, exactly as the chain with no else. -/
def objective_contributions (sr : SimResult) (pd : PricingDict) (clip_level : String) :
    List ℚ :=
  if clip_level = "d" then
    [dotT sr.time_steps (fun t => clip0 (districtConsumption sr t)) sr.electricity_pricing,
     dotT sr.time_steps (fun t => clip0 (districtConsumption sr t)) sr.carbon_intensity
       * pd.carbon]
  else if clip_level = "b" then
    [(sr.buildings.map (fun b =>
        dotT sr.time_steps (fun t => clip0 (b.net_electricity_consumption t))
          sr.electricity_pricing)).sum,
     (sr.buildings.map (fun b =>
        dotT sr.time_steps (fun t => clip0 (b.net_electricity_consumption t))
          sr.carbon_intensity)).sum * pd.carbon]
  else if clip_level = "m" then
    [(sr.buildings.map (fun b =>
        dotT sr.time_steps (fun t => clip0 (b.net_electricity_consumption t))
          sr.electricity_pricing)).sum,
     dotT sr.time_steps (fun t => clip0 (districtConsumption sr t)) sr.carbon_intensity
       * pd.carbon]
  else []

/-- Battery capital cost term (line 158):
np.sum([b.electrical_storage.capacity_history[0] for b in env.buildings])
times pricing_dict battery.  capacity_history[0], the earliest recorded
capacity, is embedded as List.headI. -/
def battery_capital_cost (sr : SimResult) (pd : PricingDict) : ℚ :=
  (sr.buildings.map (fun b => b.capacity_history.headI)).sum * pd.battery

/-- Solar capital cost term (line 159):
np.sum([b.pv.nominal_power for b in env.buildings]) times pricing_dict solar. -/
def solar_capital_cost (sr : SimResult) (pd : PricingDict) : ℚ :=
  (sr.buildings.map (fun b => b.pv_nominal_power)).sum * pd.solar

/-- The dictionary returned by evaluate_system. -/
structure EvaluationResult where
  objective : ℚ
  objective_contrs : List ℚ
deriving DecidableEq

/-- The aggregation phase of evaluate_system (lines 137-161): build the
clip-level contributions, then under design scale them by opex_factor
and append the two capital cost terms, and return their sum together
with the list. -/
def evaluate_objective (sr : SimResult) (pd : PricingDict) (opex_factor : ℚ)
    (clip_level : String) (design : Bool) : EvaluationResult :=
  let contrs := objective_contributions sr pd clip_level
  let contrs2 :=
    if design then
      contrs.map (fun contr => contr * opex_factor)
        ++ [battery_capital_cost sr pd, solar_capital_cost sr pd]
    else contrs
  { objective := contrs2.sum, objective_contrs := contrs2 }

/-! ## The control loop -/

/-- The CityLearn environment as seen by the loop: a fixed episode
length, and observations that are an arbitrary deterministic function
of the list of actions applied so far (obs [] embeds the observations
returned by env.reset()).  Each observation is indexed by building and
by observation column. -/
structure LoopEnv where
  time_steps : ℕ
  obs : List (ℕ → ℚ) → ℕ → ℕ → ℚ

/-- The LinProgModel planner as seen by the loop: the per-building
battery capacities it records, and the solve operation, a function of
the window start, the horizon and the current SoC vector, returning
the first-timestep battery inflow per building, or none when the solve
raises. -/
structure LinProgModel where
  N : ℕ
  battery_capacities : ℕ → ℚ
  solve : ℕ → ℕ → (ℕ → ℚ) → Option (ℕ → ℚ)

/-- The fixed SoC observation column (soc_obs_index = 22 in the code). -/
def soc_obs_index : ℕ := 22

/-- SoC derivation from the latest observations (lines 102 and 131):
for each building, observed charge fraction times battery capacity. -/
def socFromObs (env : LoopEnv) (lp : LinProgModel) (hist : List (ℕ → ℚ)) : ℕ → ℚ :=
  fun i => env.obs hist i soc_obs_index * lp.battery_capacities i

/-- np.zeros((lp.N, 1)): the zero action vector. -/
def zero_actions : ℕ → ℚ := fun _ => 0

/-- The planning guard of line 113:
(num_steps <= (env.time_steps - 1) - tau) and (no_control == False).
Python subtraction is over ℤ, hence the casts. -/
def planned (time_steps tau : ℕ) (no_control : Bool) (num_steps : ℕ) : Bool :=
  decide ((num_steps : ℤ) ≤ ((time_steps : ℤ) - 1) - (tau : ℤ)) && !no_control

/-- The while loop of lines 108-133, run with fuel = env.time_steps
(the environment signals done exactly after time_steps steps).  State:
current step index, current SoC vector, the action history applied to
the environment so far, and the list of steps at which the planner
solve was invoked (embedding, observably, the solver bookkeeping of the
code).  A failed solve aborts the whole run with none, embedding the

propagated solver exception. -/
def runLoop (env : LoopEnv) (lp : LinProgModel) (tau : ℕ) (no_control : Bool) :
    ℕ → ℕ → (ℕ → ℚ) → List (ℕ → ℚ) → List ℕ → Option (List (ℕ → ℚ) × List ℕ)
  | 0, _, _, hist, solved => some (hist, solved)
  | fuel + 1, num_steps, current_socs, hist, solved =>
    if planned env.time_steps tau no_control num_steps then
      match lp.solve num_steps tau current_socs with
      | none => none
      | some flow =>
        runLoop env lp tau no_control fuel (num_steps + 1)
          (socFromObs env lp (hist ++ [fun i => flow i / lp.battery_capacities i]))
          (hist ++ [fun i => flow i / lp.battery_capacities i])
          (solved ++ [num_steps])
    else
      runLoop env lp tau no_control fuel (num_steps + 1)
        (socFromObs env lp (hist ++ [zero_actions]))
        (hist ++ [zero_actions])
        solved

/-- The full control loop of evaluate_system: start at step 0 with the
SoC vector derived from the reset observations and an empty history. -/
def evaluate_loop (env : LoopEnv) (lp : LinProgModel) (tau : ℕ) (no_control : Bool) :
    Option (List (ℕ → ℚ) × List ℕ) :=
  runLoop env lp tau no_control env.time_steps 0 (socFromObs env lp []) [] []

/-- Variant of the loop written the way the spec describes the SoC
tracking: no SoC state is threaded between iterations at all; the SoC
vector is recomputed from the latest observations at the point where
the solve is invoked. -/
def runLoopDerived (env : LoopEnv) (lp : LinProgModel) (tau : ℕ) (no_control : Bool) :
    ℕ → ℕ → List (ℕ → ℚ) → List ℕ → Option (List (ℕ → ℚ) × List ℕ)
  | 0, _, hist, solved => some (hist, solved)
  | fuel + 1, num_steps, hist, solved =>
    if planned env.time_steps tau no_control num_steps then
      match lp.solve num_steps tau (socFromObs env lp hist) with
      | none => none
      | some flow =>
        runLoopDerived env lp tau no_control fuel (num_steps + 1)
          (hist ++ [fun i => flow i / lp.battery_capacities i])
          (solved ++ [num_steps])
    else
      runLoopDerived env lp tau no_control fuel (num_steps + 1)
        (hist ++ [zero_actions])
        solved

/-- Spec-side full loop: SoC always re-derived from the latest
observations, never carried forward. -/
def evaluate_loop_derived (env : LoopEnv) (lp : LinProgModel) (tau : ℕ)
    (no_control : Bool) : Option (List (ℕ → ℚ) × List ℕ) :=
  runLoopDerived env lp tau no_control env.time_steps 0 [] []

/-! ## The construct_and_evaluate_system wrapper -/

/-- str.split(sep) on character lists (Python semantics: splitting the
empty string gives one empty part, adjacent separators give empty
parts). -/
def splitSep (sep : Char) : List Char → List (List Char)
  | [] => [[]]
  | c :: rest =>
    match splitSep sep rest with
    | [] => [[c]]
    | h :: t => if c = sep then [] :: h :: t else (c :: h) :: t

/-- sep.join(parts) on character lists. -/
def joinSep (sep : Char) : List (List Char) → List Char
  | [] => []
  | [c] => c
  | c :: cs => c ++ sep :: joinSep sep cs

/-- One step of the component scan of posixpath.normpath: skip empty
and dot components, append a component unless it is a resolvable
dot-dot, in which case pop the previous component. -/
def normpathStep (initialSlashes : ℕ) (acc : List (List Char)) (comp : List Char) :
    List (List Char) :=
  if comp = [] ∨ comp = ['.'] then acc
  else if comp ≠ ['.', '.'] ∨ (initialSlashes = 0 ∧ acc = [])
      ∨ (acc ≠ [] ∧ acc.getLast? = some ['.', '.']) then acc ++ [comp]
  else if acc ≠ [] then acc.dropLast
  else acc

/-- Rejoin phase of normpath: fold the component scan, prepend the
recorded initial slashes, return dot for an empty result. -/
def normpathJoin (initialSlashes : ℕ) (comps : List (List Char)) : List Char :=
  let newComps := comps.foldl (normpathStep initialSlashes) []
  let joined := List.replicate initialSlashes '/' ++ joinSep '/' newComps
  if joined = [] then ['.'] else joined

/-- posixpath.normpath on character lists, following the CPython
implementation: record one or two initial slashes, scan components,
rejoin, and return dot for an empty result. -/
def normpathChars (p : List Char) : List Char :=
  if p = [] then ['.']
  else
    if (p.take 2 = ['/', '/'] ∧ p.take 3 ≠ ['/', '/', '/']) then
      normpathJoin 2 (splitSep '/' p)
    else if p.take 1 = ['/'] then
      normpathJoin 1 (splitSep '/' p)
    else
      normpathJoin 0 (splitSep '/' p)

/-- os.path.normpath on strings (POSIX separator). -/
def normpath (p : String) : String := String.mk (normpathChars p.data)

/-- os.path.normpath(schema_path).split(os.path.sep)[-1]: the final
component of the normalized path. -/
def last_path_component (p : String) : List Char :=
  (splitSep '/' (normpathChars p.data)).getLastD []

/-- The deletion guard of line 43: remove the schema file exactly when
the final component of its normalized path is not schema.json. -/
def deletes_schema (p : String) : Bool :=
  decide (last_path_component p ≠ "schema.json".data)

/-- os.remove on a filesystem embedded as the list of existing paths:
removing an absent path raises (Except.error), embedding OSError. -/
def os_remove (fs : List String) (p : String) : Except Unit (List String) :=
  if p ∈ fs then Except.ok (fs.erase p) else Except.error ()

/-- The value construct_and_evaluate_system returns to its caller:
either the full results dictionary (return_contrs) or just the scalar
objective. -/
inductive ConstructReturn where
  | full : EvaluationResult → ConstructReturn
  | objective : ℚ → ConstructReturn
deriving DecidableEq

/-- The schema path produced by build_schema for a given worker id:
when mproc_id is supplied, base_kwargs gains the schema name
mproc_schema_temp_<id> before build_schema is called.  build_schema is
an external collaborator, embedded as an arbitrary function of that
option. -/
def schema_path_of (build_schema : Option String → String) (mproc_id : Option String) :
    String :=
  build_schema (mproc_id.map (fun i => "mproc_schema_temp_" ++ i))

/-- The returned value for given eval results and return_contrs flag. -/
def construct_return (ev : String → EvaluationResult) (schema_path : String)
    (return_contrs : Bool) : ConstructReturn :=
  if return_contrs then ConstructReturn.full (ev schema_path)
  else ConstructReturn.objective (ev schema_path).objective

/-- construct_and_evaluate_system (lines 18-49): build the schema,
evaluate (ev embeds the evaluate_system call, which always succeeds
here), then delete the schema file unless its normalized final
component is schema.json, and return the requested value together with
the resulting filesystem.  A failing os.remove propagates as
Except.error and the computed results are lost. -/
def construct_and_evaluate_system (build_schema : Option String → String)
    (ev : String → EvaluationResult) (fs : List String)
    (mproc_id : Option String) (return_contrs : Bool) :
    Except Unit (ConstructReturn × List String) :=
  let schema_path := schema_path_of build_schema mproc_id
  if deletes_schema schema_path then
    match os_remove fs schema_path with
    | Except.error e => Except.error e
    | Except.ok fs2 => Except.ok (construct_return ev schema_path return_contrs, fs2)
  else
    Except.ok (construct_return ev schema_path return_contrs, fs)

/-! ## Concrete instances used by the witnesses -/

/-- A small concrete environment: three steps, constant observations. -/
def envW : LoopEnv := { time_steps := 3, obs := fun _ _ _ => 1 }

/-- A small concrete planner whose solve always succeeds. -/
def lpW : LinProgModel :=
  { N := 1, battery_capacities := fun _ => 2, solve := fun _ _ _ => some (fun _ => 1) }

/-- A one-building terminal environment with zero consumption. -/
def srW : SimResult :=
  { time_steps := 1
    buildings := [{ net_electricity_consumption := fun _ => 0
                    capacity_history := [0]
                    pv_nominal_power := 0 }]
    electricity_pricing := fun _ => 1
    carbon_intensity := fun _ => 1 }

/-- An all-zero pricing dictionary. -/
def pdW : PricingDict := { carbon := 0, battery := 0, solar := 0 }

/-- The two-building, two-timestep configuration of the clip-policy
divergence claim: consumption (+10, -4) and (-4, +10), uniform price 1
and carbon intensity 1. -/
def srC4 : SimResult :=
  { time_steps := 2
    buildings := [{ net_electricity_consumption := fun t => if t = 0 then 10 else -4
                    capacity_history := [0]
                    pv_nominal_power := 0 },
                  { net_electricity_consumption := fun t => if t = 0 then -4 else 10
                    capacity_history := [0]
                    pv_nominal_power := 0 }]
    electricity_pricing := fun _ => 1
    carbon_intensity := fun _ => 1 }

/-- Unit pricing for the divergence claim. -/
def pdC4 : PricingDict := { carbon := 1, battery := 1, solar := 1 }

/-! ## Spec-side descriptions used by the refinement claims -/

/-- The mixed-policy electricity cost as the spec words it: clip each
building series at zero, dot each clipped series with the price
series, then sum over buildings. -/
def mixed_electricity_cost_spec (sr : SimResult) : ℚ :=
  (sr.buildings.map (fun b =>
      dotT sr.time_steps (fun t => clip0 (b.net_electricity_consumption t))
        sr.electricity_pricing)).sum

/-- The mixed-policy carbon cost as the spec words it: sum net
consumption across buildings at each timestep, clip the summed series
at zero, dot with the carbon intensity series, then multiply by the
carbon price. -/
def mixed_carbon_cost_spec (sr : SimResult) (pd : PricingDict) : ℚ :=
  dotT sr.time_steps
    (fun t =>
      clip0 ((sr.buildings.map (fun b => b.net_electricity_consumption t)).sum))
    sr.carbon_intensity * pd.carbon

/-! ## Helper lemmas about the aggregation -/

lemma clip0_of_nonneg {q : ℚ} (h : 0 ≤ q) : clip0 q = q := max_eq_left h

lemma clip0_nonneg (q : ℚ) : 0 ≤ clip0 q := le_max_right q 0

lemma le_clip0 (q : ℚ) : q ≤ clip0 q := le_max_left q 0

lemma sum_dot_swap (l : List BuildingData) (T : ℕ) (f : BuildingData → ℕ → ℚ)
    (p : ℕ → ℚ) :
    (∑ t ∈ Finset.range T, (l.map (fun b => f b t)).sum * p t)
      = (l.map (fun b => ∑ t ∈ Finset.range T, f b t * p t)).sum := by
  induction l with
  | nil => simp
  | cons b l ih =>
    simp only [List.map_cons, List.sum_cons, add_mul, Finset.sum_add_distrib, ih]

lemma clip_district_dot_eq (sr : SimResult) (p : ℕ → ℚ)
    (h : ∀ b ∈ sr.buildings, ∀ t, t < sr.time_steps →
        0 ≤ b.net_electricity_consumption t) :
    dotT sr.time_steps (fun t => clip0 (districtConsumption sr t)) p
      = (sr.buildings.map (fun b =>
          dotT sr.time_steps (fun t => clip0 (b.net_electricity_consumption t)) p)).sum := by
  unfold dotT
  have h1 : ∀ t ∈ Finset.range sr.time_steps,
      clip0 (districtConsumption sr t) * p t = districtConsumption sr t * p t := by
    intro t ht
    rw [clip0_of_nonneg]
    apply List.sum_nonneg
    intro x hx
    simp only [List.mem_map] at hx
    obtain ⟨b, hb, rfl⟩ := hx
    exact h b hb t (Finset.mem_range.mp ht)
  rw [Finset.sum_congr rfl h1]
  unfold districtConsumption
  rw [sum_dot_swap]
  apply congrArg List.sum
  apply List.map_congr_left
  intro b hb
  apply Finset.sum_congr rfl
  intro t ht
  have hc := clip0_of_nonneg (h b hb t (Finset.mem_range.mp ht))
  simp only [hc]

/-! ## Claims about the objective aggregation -/

/-- C2: with clip_level m, the electricity contribution follows the
building-level policy (clip each building series at zero, dot with the
price series, sum over buildings) and the carbon contribution follows
the district-level policy (sum across buildings per timestep, clip the
summed series at zero, dot with the carbon intensity series, scale by
the carbon price). -/
theorem C2_mixed_policy_contributions (sr : SimResult) (pd : PricingDict) :
    objective_contributions sr pd "m"
      = [mixed_electricity_cost_spec sr, mixed_carbon_cost_spec sr pd] := by
  rfl

/-- C3: when every building has non-negative net consumption at every
simulated timestep, the three clip policies d, b and m produce the same
evaluation result for any pricing, opex factor and design flag. -/
theorem C3_clip_policy_equivalence (sr : SimResult) (pd : PricingDict)
    (opex_factor : ℚ) (design : Bool)
    (h : ∀ b ∈ sr.buildings, ∀ t, t < sr.time_steps →
        0 ≤ b.net_electricity_consumption t) :
    evaluate_objective sr pd opex_factor "d" design
        = evaluate_objective sr pd opex_factor "b" design
      ∧ evaluate_objective sr pd opex_factor "b" design
        = evaluate_objective sr pd opex_factor "m" design := by
  have hdb : objective_contributions sr pd "d" = objective_contributions sr pd "b" := by
    show [_, _] = [_, _]
    rw [clip_district_dot_eq sr sr.electricity_pricing h,
      clip_district_dot_eq sr sr.carbon_intensity h]
  have hbm : objective_contributions sr pd "b" = objective_contributions sr pd "m" := by
    show [_, _] = [_, _]
    rw [clip_district_dot_eq sr sr.carbon_intensity h]
  constructor
  · simp only [evaluate_objective, hdb]
  · simp only [evaluate_objective, hbm]

/-- C3 witness: a concrete one-building environment with identically
zero net consumption satisfies the non-negativity hypothesis, and the
three policies agree on it. -/
theorem C3_witness :
    (∀ b ∈ srW.buildings, ∀ t, t < srW.time_steps →
        0 ≤ b.net_electricity_consumption t)
      ∧ (evaluate_objective srW pdW 10 "d" true = evaluate_objective srW pdW 10 "b" true
        ∧ evaluate_objective srW pdW 10 "b" true
          = evaluate_objective srW pdW 10 "m" true) :=
  ⟨by simp [srW], C3_clip_policy_equivalence srW pdW 10 true (by simp [srW])⟩

/-- C4: on the two-building configuration with consumptions (+10, -4)
and (-4, +10), uniform price 1 and carbon intensity 1, the district sum
at a timestep clips to 6, a clipped building series dotted with the
price gives 10, and the district policy electricity contribution is
strictly below the building policy one; in general the clipped district
series never exceeds the per-building clipped sum at any timestep. -/
theorem C4_clip_policy_divergence :
    clip0 (districtConsumption srC4 0) = 6
      ∧ dotT srC4.time_steps
          (fun t => clip0 ((srC4.buildings.headI).net_electricity_consumption t))
          srC4.electricity_pricing = 10
      ∧ (objective_contributions srC4 pdC4 "d").headI
          < (objective_contributions srC4 pdC4 "b").headI
      ∧ ∀ (sr : SimResult) (t : ℕ),
          clip0 (districtConsumption sr t)
            ≤ (sr.buildings.map (fun b => clip0 (b.net_electricity_consumption t))).sum := by
  refine ⟨?_, ?_, ?_, ?_⟩
  · norm_num [clip0, districtConsumption, srC4]
  · norm_num [dotT, clip0, srC4, List.headI, Finset.sum_range_succ]
  · have hd2 : (objective_contributions srC4 pdC4 "d").headI
        = dotT srC4.time_steps (fun t => clip0 (districtConsumption srC4 t))
            srC4.electricity_pricing := rfl
    have hb2 : (objective_contributions srC4 pdC4 "b").headI
        = (srC4.buildings.map (fun b =>
            dotT srC4.time_steps (fun t => clip0 (b.net_electricity_consumption t))
              srC4.electricity_pricing)).sum := rfl
    rw [hd2, hb2]
    norm_num [dotT, clip0, districtConsumption, srC4, Finset.sum_range_succ]
  · intro sr t
    apply max_le
    · unfold districtConsumption
      apply List.sum_le_sum
      intro b hb
      exact le_clip0 _
    · apply List.sum_nonneg
      intro x hx
      simp only [List.mem_map] at hx
      obtain ⟨b, hb, rfl⟩ := hx
      exact clip0_nonneg _

/-- C5: without design the contributions are exactly the unscaled
clip-level contributions and contain no capital cost entries; with
design they are the opex-scaled contributions with exactly the battery
and solar capital cost terms appended, both non-negative whenever the
capacity histories, nominal powers and prices are. -/
theorem C5_design_capital_costs (sr : SimResult) (pd : PricingDict) (k : ℚ)
    (clip_level : String)
    (hb : 0 ≤ pd.battery) (hs : 0 ≤ pd.solar)
    (hcap : ∀ b ∈ sr.buildings, ∀ c ∈ b.capacity_history, 0 ≤ c)
    (hpv : ∀ b ∈ sr.buildings, 0 ≤ b.pv_nominal_power) :
    (evaluate_objective sr pd k clip_level false).objective_contrs
        = objective_contributions sr pd clip_level
      ∧ (evaluate_objective sr pd k clip_level true).objective_contrs
        = (objective_contributions sr pd clip_level).map (fun contr => contr * k)
          ++ [battery_capital_cost sr pd, solar_capital_cost sr pd]
      ∧ 0 ≤ battery_capital_cost sr pd
      ∧ 0 ≤ solar_capital_cost sr pd := by
  refine ⟨rfl, rfl, ?_, ?_⟩
  · apply mul_nonneg _ hb
    apply List.sum_nonneg
    intro x hx
    simp only [List.mem_map] at hx
    obtain ⟨b, hbmem, rfl⟩ := hx
    cases hh : b.capacity_history with
    | nil => exact le_refl 0
    | cons c cs =>
      have hc := hcap b hbmem c (by rw [hh]; exact List.mem_cons_self c cs)
      simpa [hh] using hc
  · apply mul_nonneg _ hs
    apply List.sum_nonneg
    intro x hx
    simp only [List.mem_map] at hx
    obtain ⟨b, hbmem, rfl⟩ := hx
    exact hpv b hbmem

/-- C5 witness: concrete instantiation with zero prices, a zero
capacity history and zero nominal power. -/
theorem C5_witness :
    (0 ≤ pdW.battery) ∧ (0 ≤ pdW.solar)
      ∧ (∀ b ∈ srW.buildings, ∀ c ∈ b.capacity_history, 0 ≤ c)
      ∧ (∀ b ∈ srW.buildings, 0 ≤ b.pv_nominal_power)
      ∧ ((evaluate_objective srW pdW 10 "m" false).objective_contrs
            = objective_contributions srW pdW "m"
        ∧ (evaluate_objective srW pdW 10 "m" true).objective_contrs
            = (objective_contributions srW pdW "m").map (fun contr => contr * 10)
              ++ [battery_capital_cost srW pdW, solar_capital_cost srW pdW]
        ∧ 0 ≤ battery_capital_cost srW pdW
        ∧ 0 ≤ solar_capital_cost srW pdW) :=
  ⟨le_refl _, le_refl _, by simp [srW], by simp [srW],
    C5_design_capital_costs srW pdW 10 "m" (le_refl _) (le_refl _)
      (by simp [srW]) (by simp [srW])⟩

/-- C10: a clip_level outside d, b, m falls through the if/elif chain:
without design the result is objective 0 with an empty contributions
list, and with design exactly the two capital cost terms remain. -/
theorem C10_invalid_clip_level (sr : SimResult) (pd : PricingDict) (k : ℚ)
    (clip_level : String) (hd : clip_level ≠ "d") (hb : clip_level ≠ "b")
    (hm : clip_level ≠ "m") :
    evaluate_objective sr pd k clip_level false
        = { objective := 0, objective_contrs := [] }
      ∧ (evaluate_objective sr pd k clip_level true).objective_contrs
        = [battery_capital_cost sr pd, solar_capital_cost sr pd]
      ∧ (evaluate_objective sr pd k clip_level true).objective
        = battery_capital_cost sr pd + solar_capital_cost sr pd := by
  have hcontr : objective_contributions sr pd clip_level = [] := by
    simp [objective_contributions, hd, hb, hm]
  refine ⟨?_, ?_, ?_⟩ <;> simp [evaluate_objective, hcontr]

/-- C10 witness: concrete instantiation at the clip_level x. -/
theorem C10_witness :
    (("x" : String) ≠ "d") ∧ (("x" : String) ≠ "b") ∧ (("x" : String) ≠ "m")
      ∧ (evaluate_objective srW pdW 10 "x" false
            = { objective := 0, objective_contrs := [] }
        ∧ (evaluate_objective srW pdW 10 "x" true).objective_contrs
            = [battery_capital_cost srW pdW, solar_capital_cost srW pdW]
        ∧ (evaluate_objective srW pdW 10 "x" true).objective
            = battery_capital_cost srW pdW + solar_capital_cost srW pdW) :=
  ⟨by decide, by decide, by decide,
    C10_invalid_clip_level srW pdW 10 "x" (by decide) (by decide) (by decide)⟩

/-! ## Helper lemmas about the control loop -/

lemma range_map_add_succ (n s : ℕ) :
    (List.range (n + 1)).map (fun j => j + s)
      = s :: (List.range n).map (fun j => j + (s + 1)) := by
  rw [List.range_succ_eq_map, List.map_cons, List.map_map]
  refine congrArg₂ List.cons (by omega) ?_
  apply List.map_congr_left
  intro j hj
  simp only [Function.comp_apply]
  omega

lemma runLoop_some_spec (env : LoopEnv) (lp : LinProgModel) (tau : ℕ) (nc : Bool) :
    ∀ (fuel s : ℕ) (socs : ℕ → ℚ) (hist : List (ℕ → ℚ)) (solved : List ℕ)
      (hist2 : List (ℕ → ℚ)) (solved2 : List ℕ),
      runLoop env lp tau nc fuel s socs hist solved = some (hist2, solved2) →
      hist2.length = hist.length + fuel
        ∧ solved2 = solved ++ ((List.range fuel).map (fun j => j + s)).filter
            (planned env.time_steps tau nc)
        ∧ (∀ j, j < fuel → planned env.time_steps tau nc (s + j) = false →
            hist2.getD (hist.length + j) zero_actions = zero_actions)
        ∧ (∀ j, j < hist.length →
            hist2.getD j zero_actions = hist.getD j zero_actions) := by
  intro fuel
  induction fuel with
  | zero =>
    intro s socs hist solved hist2 solved2 h
    simp only [runLoop, Option.some.injEq, Prod.mk.injEq] at h
    obtain ⟨rfl, rfl⟩ := h
    exact ⟨by simp, by simp, fun j hj _ => absurd hj (by omega), fun j hj => rfl⟩
  | succ fuel ih =>
    intro s socs hist solved hist2 solved2 h
    rw [runLoop] at h
    by_cases hp : planned env.time_steps tau nc s = true
    · rw [if_pos hp] at h
      cases hsol : lp.solve s tau socs with
      | none =>
        rw [hsol] at h
        cases h
      | some flow =>
        rw [hsol] at h
        obtain ⟨h1, h2, h3, h4⟩ := ih (s + 1) _ _ _ _ _ h
        refine ⟨by simp at h1 ⊢; omega, ?_, ?_, ?_⟩
        · rw [h2, range_map_add_succ, List.filter_cons, if_pos hp]
          simp [List.append_assoc]
        · intro j hj hpf
          cases j with
          | zero =>
            rw [Nat.add_zero] at hpf
            rw [hp] at hpf
            cases hpf
          | succ j =>
            have := h3 j (by omega) (by rw [show s + 1 + j = s + (j + 1) from by omega]
                                        exact hpf)
            rw [List.length_append] at this
            simpa [show hist.length + 1 + j = hist.length + (j + 1) from by omega]
              using this
        · intro j hj
          rw [h4 j (by simp; omega)]
          rw [List.getD_append _ _ _ _ (by omega)]
    · rw [if_neg hp] at h
      obtain ⟨h1, h2, h3, h4⟩ := ih (s + 1) _ _ _ _ _ h
      have hpb : planned env.time_steps tau nc s = false := by
        revert hp
        cases planned env.time_steps tau nc s <;> simp
      refine ⟨by simp at h1 ⊢; omega, ?_, ?_, ?_⟩
      · rw [h2, range_map_add_succ, List.filter_cons, if_neg (by simp [hpb])]
      · intro j hj hpf
        cases j with
        | zero =>
          rw [Nat.add_zero]
          rw [h4 hist.length (by simp)]
          rw [List.getD_append_right _ _ _ _ (by omega)]
          simp
        | succ j =>
          have := h3 j (by omega) (by rw [show s + 1 + j = s + (j + 1) from by omega]
                                      exact hpf)
          rw [List.length_append] at this
          simpa [show hist.length + 1 + j = hist.length + (j + 1) from by omega]
            using this
      · intro j hj
        rw [h4 j (by simp; omega)]
        rw [List.getD_append _ _ _ _ (by omega)]

lemma runLoop_isSome (env : LoopEnv) (lp : LinProgModel) (tau : ℕ) (nc : Bool)
    (hsolve : ∀ s socs, (lp.solve s tau socs).isSome = true) :
    ∀ (fuel s : ℕ) (socs : ℕ → ℚ) (hist : List (ℕ → ℚ)) (solved : List ℕ),
      (runLoop env lp tau nc fuel s socs hist solved).isSome = true := by
  intro fuel
  induction fuel with
  | zero =>
    intro s socs hist solved
    simp [runLoop]
  | succ fuel ih =>
    intro s socs hist solved
    rw [runLoop]
    by_cases hp : planned env.time_steps tau nc s = true
    · rw [if_pos hp]
      cases hsol : lp.solve s tau socs with
      | none =>
        have hcontra := hsolve s socs
        rw [hsol] at hcontra
        cases hcontra
      | some flow => exact ih _ _ _ _
    · rw [if_neg hp]
      exact ih _ _ _ _

lemma runLoop_no_control (env : LoopEnv) (lp : LinProgModel) (tau : ℕ) :
    ∀ (fuel s : ℕ) (socs : ℕ → ℚ) (hist : List (ℕ → ℚ)) (solved : List ℕ),
      runLoop env lp tau true fuel s socs hist solved
        = some (hist ++ List.replicate fuel zero_actions, solved) := by
  intro fuel
  induction fuel with
  | zero =>
    intro s socs hist solved
    simp [runLoop]
  | succ fuel ih =>
    intro s socs hist solved
    rw [runLoop]
    have hp : planned env.time_steps tau true s = false := by simp [planned]
    rw [if_neg (by simp [hp])]
    rw [ih]
    simp [List.replicate_succ, List.append_assoc]

lemma runLoop_eq_derived (env : LoopEnv) (lp : LinProgModel) (tau : ℕ) (nc : Bool) :
    ∀ (fuel s : ℕ) (hist : List (ℕ → ℚ)) (solved : List ℕ),
      runLoop env lp tau nc fuel s (socFromObs env lp hist) hist solved
        = runLoopDerived env lp tau nc fuel s hist solved := by
  intro fuel
  induction fuel with
  | zero =>
    intro s hist solved
    simp [runLoop, runLoopDerived]
  | succ fuel ih =>
    intro s hist solved
    rw [runLoop, runLoopDerived]
    by_cases hp : planned env.time_steps tau nc s = true
    · rw [if_pos hp, if_pos hp]
      cases hsol : lp.solve s tau (socFromObs env lp hist) with
      | none => rfl
      | some flow => exact ih _ _ _
    · rw [if_neg hp, if_neg hp]
      exact ih _ _ _

lemma length_filter_range_lt (n m : ℕ) (h : m ≤ n) :
    ((List.range n).filter (fun s => decide (s < m))).length = m := by
  induction n with
  | zero =>
    simp only [List.range_zero, List.filter_nil, List.length_nil]
    omega
  | succ n ih =>
    rw [List.range_succ, List.filter_append, List.length_append]
    by_cases hm : m ≤ n
    · rw [ih hm]
      have hnm : ¬ (n < m) := by omega
      simp [hnm]
    · have hm2 : m = n + 1 := by omega
      subst hm2
      have hall : (List.range n).filter (fun s => decide (s < n + 1)) = List.range n := by
        apply List.filter_eq_self.mpr
        intro a ha
        simp only [decide_eq_true_eq]
        have := List.mem_range.mp ha
        omega
      rw [hall]
      simp [List.length_range]

/-! ## Claims about the control loop -/

/-- C1: for any environment with time_steps greater than tau and a
planner whose solves succeed, the loop applies exactly time_steps
actions; with control enabled the solve is invoked on exactly
time_steps - tau steps, precisely the steps with index at most
time_steps - 1 - tau, and never inside the final tau steps. -/
theorem C1_step_and_solve_counts (env : LoopEnv) (lp : LinProgModel) (tau : ℕ)
    (nc : Bool) (htau : tau < env.time_steps)
    (hsolve : ∀ s socs, (lp.solve s tau socs).isSome = true) :
    ∃ hist solved,
      evaluate_loop env lp tau nc = some (hist, solved)
        ∧ hist.length = env.time_steps
        ∧ solved = (List.range env.time_steps).filter (planned env.time_steps tau nc)
        ∧ (nc = false → solved.length = env.time_steps - tau)
        ∧ (∀ s : ℕ, planned env.time_steps tau false s = true
            ↔ (s : ℤ) ≤ (env.time_steps : ℤ) - 1 - (tau : ℤ))
        ∧ (∀ s : ℕ, (env.time_steps : ℤ) - (tau : ℤ) ≤ (s : ℤ) →
            planned env.time_steps tau nc s = false) := by
  have hsome := runLoop_isSome env lp tau nc hsolve env.time_steps 0
    (socFromObs env lp []) [] []
  obtain ⟨⟨hist, solved⟩, heq⟩ := Option.isSome_iff_exists.mp hsome
  obtain ⟨h1, h2, h3, h4⟩ :=
    runLoop_some_spec env lp tau nc env.time_steps 0 _ [] [] hist solved heq
  have hmap0 : (List.range env.time_steps).map (fun j => j + 0)
      = List.range env.time_steps := by
    simp
  have hsolved : solved
      = (List.range env.time_steps).filter (planned env.time_steps tau nc) := by
    rw [h2, hmap0]
    simp
  refine ⟨hist, solved, heq, by simpa using h1, hsolved, ?_, ?_, ?_⟩
  · intro hnc
    subst hnc
    rw [hsolved]
    have hcong : (List.range env.time_steps).filter (planned env.time_steps tau false)
        = (List.range env.time_steps).filter
            (fun s => decide (s < env.time_steps - tau)) := by
      apply List.filter_congr
      intro s hs
      simp only [planned, Bool.not_false, Bool.and_true]
      apply decide_eq_decide.mpr
      omega
    rw [hcong]
    exact length_filter_range_lt env.time_steps (env.time_steps - tau) (by omega)
  · intro s
    simp [planned]
  · intro s hzone
    have hns : ¬ ((s : ℤ) ≤ (env.time_steps : ℤ) - 1 - (tau : ℤ)) := by omega
    simp [planned, hns]

/-- C1 witness: the concrete three-step environment with horizon 1 and
an always-succeeding planner. -/
theorem C1_witness :
    (1 < envW.time_steps)
      ∧ (∃ hist solved,
          evaluate_loop envW lpW 1 false = some (hist, solved)
            ∧ hist.length = envW.time_steps
            ∧ solved = (List.range envW.time_steps).filter (planned envW.time_steps 1 false)
            ∧ (false = false → solved.length = envW.time_steps - 1)
            ∧ (∀ s : ℕ, planned envW.time_steps 1 false s = true
                ↔ (s : ℤ) ≤ (envW.time_steps : ℤ) - 1 - (1 : ℤ))
            ∧ (∀ s : ℕ, (envW.time_steps : ℤ) - (1 : ℤ) ≤ (s : ℤ) →
                planned envW.time_steps 1 false s = false)) :=
  ⟨by decide, C1_step_and_solve_counts envW lpW 1 false (by decide) (fun _ _ => rfl)⟩

/-- C6: with no_control the loop applies the zero action vector at every
step (the history is time_steps copies of the zero action and the solve
is never invoked); in any successful run the action at every step inside
the terminal no-plan zone is the zero action, whatever the control flag;
and a failed solve at a planned step aborts the run with none rather
than substituting the zero action. -/
theorem C6_zero_action_fallback (env : LoopEnv) (lp : LinProgModel) (tau : ℕ)
    (nc : Bool) :
    evaluate_loop env lp tau true
        = some (List.replicate env.time_steps zero_actions, [])
      ∧ (∀ hist solved, evaluate_loop env lp tau nc = some (hist, solved) →
          ∀ s : ℕ, (env.time_steps : ℤ) - 1 - (tau : ℤ) < (s : ℤ) →
            hist.getD s zero_actions = zero_actions)
      ∧ (∀ (fuel s : ℕ) (socs : ℕ → ℚ) (hist : List (ℕ → ℚ)) (solved : List ℕ),
          planned env.time_steps tau nc s = true →
          lp.solve s tau socs = none →
          runLoop env lp tau nc (fuel + 1) s socs hist solved = none) := by
  refine ⟨?_, ?_, ?_⟩
  · unfold evaluate_loop
    rw [runLoop_no_control]
    simp
  · intro hist solved heq s hzone
    obtain ⟨h1, h2, h3, h4⟩ :=
      runLoop_some_spec env lp tau nc env.time_steps 0 _ [] [] hist solved heq
    by_cases hsT : s < env.time_steps
    · have hns : ¬ ((s : ℤ) ≤ (env.time_steps : ℤ) - 1 - (tau : ℤ)) := by omega
      have hpf : planned env.time_steps tau nc (0 + s) = false := by
        simp [planned, hns]
      have := h3 s hsT hpf
      simpa using this
    · apply List.getD_eq_default
      simp only [List.length_nil, Nat.zero_add] at h1
      omega
  · intro fuel s socs hist solved hp hsol
    rw [runLoop, if_pos hp, hsol]

/-- C6 witness: on the concrete environment, the no-control run is three
zero actions with no solve, and the terminal-zone action is zero. -/
theorem C6_witness :
    evaluate_loop envW lpW 1 true = some (List.replicate 3 zero_actions, [])
      ∧ (List.replicate 3 zero_actions).getD 2 zero_actions = zero_actions := by
  have h := C6_zero_action_fallback envW lpW 1 true
  exact ⟨h.1, h.2.1 (List.replicate 3 zero_actions) [] h.1 2 (by decide)⟩

/-- C7: the loop threading the current_socs variable is exactly the loop
that re-derives the SoC vector from the latest observations at the point
of use: the SoC passed to every solve is the pure derivation
observation times capacity from the latest observation matrix, starting
from the reset observations, and is never carried forward. -/
theorem C7_soc_rederived_each_step (env : LoopEnv) (lp : LinProgModel) (tau : ℕ)
    (nc : Bool) :
    evaluate_loop env lp tau nc = evaluate_loop_derived env lp tau nc := by
  unfold evaluate_loop evaluate_loop_derived
  exact runLoop_eq_derived env lp tau nc env.time_steps 0 [] []

/-! ## Claims about the construct_and_evaluate_system wrapper -/

/-- C8: after a successful evaluation the generated schema file is
deleted exactly when the final component of its normalized path is not
schema.json; a file whose final component is schema.json is left in
place, whatever the worker identifier. -/
theorem C8_schema_json_never_deleted (build_schema : Option String → String)
    (ev : String → EvaluationResult) (fs : List String) (mproc_id : Option String)
    (return_contrs : Bool)
    (hfs : schema_path_of build_schema mproc_id ∈ fs) :
    (last_path_component (schema_path_of build_schema mproc_id) = "schema.json".data →
        construct_and_evaluate_system build_schema ev fs mproc_id return_contrs
          = Except.ok (construct_return ev (schema_path_of build_schema mproc_id)
              return_contrs, fs))
      ∧ (last_path_component (schema_path_of build_schema mproc_id) ≠ "schema.json".data →
        construct_and_evaluate_system build_schema ev fs mproc_id return_contrs
          = Except.ok (construct_return ev (schema_path_of build_schema mproc_id)
              return_contrs, fs.erase (schema_path_of build_schema mproc_id))) := by
  constructor
  · intro hname
    have hdel : deletes_schema (schema_path_of build_schema mproc_id) = false := by
      simp [deletes_schema, hname]
    simp [construct_and_evaluate_system, hdel]
  · intro hname
    have hdel : deletes_schema (schema_path_of build_schema mproc_id) = true := by
      simp [deletes_schema, hname]
    simp [construct_and_evaluate_system, hdel, os_remove, hfs]

/-- C8 witness: a generated path whose final component is schema.json,
with a worker identifier supplied, is not deleted. -/
theorem C8_witness :
    ((schema_path_of (fun _ => "data/test/schema.json") (some "3"))
        ∈ ["data/test/schema.json"])
      ∧ last_path_component (schema_path_of (fun _ => "data/test/schema.json") (some "3"))
          = "schema.json".data
      ∧ construct_and_evaluate_system (fun _ => "data/test/schema.json")
          (fun _ => { objective := 0, objective_contrs := [] })
          ["data/test/schema.json"] (some "3") true
          = Except.ok
              (construct_return (fun _ => { objective := 0, objective_contrs := [] })
                (schema_path_of (fun _ => "data/test/schema.json") (some "3")) true,
               ["data/test/schema.json"]) := by
  refine ⟨by decide, by decide, ?_⟩
  exact (C8_schema_json_never_deleted (fun _ => "data/test/schema.json")
    (fun _ => { objective := 0, objective_contrs := [] })
    ["data/test/schema.json"] (some "3") true (by decide)).1 (by decide)

/-- C9 counterexample: with the schema file already absent from the
filesystem, the cleanup os.remove fails and construct_and_evaluate_system
propagates the error instead of returning the computed objective; the
successful evaluation result is lost. -/
theorem C9_counterexample :
    construct_and_evaluate_system (fun _ => "mproc_schema_temp_1.json")
      (fun _ => { objective := 5, objective_contrs := [5] }) [] none false
      = Except.error () := by
  rfl

/-- C9 amended: a failure of the cleanup step is not confined to a
warning; it propagates and suppresses the evaluation result.  The
computed value is returned exactly when the deletion succeeds, or when
deletion is skipped because the file is named schema.json. -/
theorem C9_cleanup_failure_masks_result (build_schema : Option String → String)
    (ev : String → EvaluationResult) (fs : List String) (mproc_id : Option String)
    (return_contrs : Bool) :
    (deletes_schema (schema_path_of build_schema mproc_id) = true →
        schema_path_of build_schema mproc_id ∉ fs →
        construct_and_evaluate_system build_schema ev fs mproc_id return_contrs
          = Except.error ())
      ∧ (deletes_schema (schema_path_of build_schema mproc_id) = true →
        schema_path_of build_schema mproc_id ∈ fs →
        construct_and_evaluate_system build_schema ev fs mproc_id return_contrs
          = Except.ok (construct_return ev (schema_path_of build_schema mproc_id)
              return_contrs, fs.erase (schema_path_of build_schema mproc_id)))
      ∧ (deletes_schema (schema_path_of build_schema mproc_id) = false →
        construct_and_evaluate_system build_schema ev fs mproc_id return_contrs
          = Except.ok (construct_return ev (schema_path_of build_schema mproc_id)
              return_contrs, fs)) := by
  refine ⟨?_, ?_, ?_⟩
  · intro hdel habs
    simp [construct_and_evaluate_system, hdel, os_remove, habs]
  · intro hdel hmem
    simp [construct_and_evaluate_system, hdel, os_remove, hmem]
  · intro hdel
    simp [construct_and_evaluate_system, hdel]

/-- C9 witness: concrete instantiation of the amended claim on the empty
filesystem. -/
theorem C9_witness :
    deletes_schema (schema_path_of (fun _ => "mproc_schema_temp_1.json") none) = true
      ∧ (schema_path_of (fun _ => "mproc_schema_temp_1.json") none ∉ ([] : List String))
      ∧ construct_and_evaluate_system (fun _ => "mproc_schema_temp_1.json")
          (fun _ => { objective := 5, objective_contrs := [5] }) [] none false
          = Except.error () := by
  refine ⟨by decide, by decide, ?_⟩
  exact (C9_cleanup_failure_masks_result (fun _ => "mproc_schema_temp_1.json")
    (fun _ => { objective := 5, objective_contrs := [5] }) [] none false).1
    (by decide) (by decide)
